import Mathlib

set_option maxRecDepth 10000

/-!
A verification development for the `proyecto_bsg` repository: a shallow
embedding in Lean 4 of the ETL core (batch triggering and persisted state in
`etl_system/batch_manager.py`, the dedup/load path in `etl_system/loader.py`,
the orchestration in `scripts/run_etl.py`, and the detection-id derivation in
`classification_system/detector.py`), together with theorems settling the
specified properties of those components.

Modelling conventions: wall-clock instants and durations are integers counting
seconds (the Python code compares `total_seconds()` of a `timedelta` against an
integer window); a warehouse row is abstracted to its `detection_id` string
paired with a payload tag; fallible calls (the Hive connection, the
transformer) are modelled as explicit outcome parameters, so a theorem
quantifying over them covers every possible behaviour of the external system.
-/

namespace ProyectoBSG

/-! ## Batch manager state (`etl_system/batch_manager.py`)

`BatchManager.state` is a JSON object with keys `processed_files`,
`last_video_batch`, `pending_images`, `last_run` and `statistics`
(`_load_state`, lines 60-71).  ISO-8601 timestamps are modelled as integer
seconds. -/

structure Statistics where
  total_batches : Nat
  total_records : Nat
  video_batches : Nat
  image_batches : Nat
  deriving Repr, DecidableEq

structure EtlState where
  processed_files : List String
  last_video_batch : Option Int
  pending_images : List String
  last_run : Option Int
  statistics : Statistics
  deriving Repr, DecidableEq

/-- The default state synthesized by `BatchManager._load_state` when no state
file exists (lines 60-71). -/
def initState : EtlState :=
  { processed_files := []
    last_video_batch := none
    pending_images := []
    last_run := none
    statistics := { total_batches := 0, total_records := 0,
                    video_batches := 0, image_batches := 0 } }

/-- Trigger rule `BatchManager.should_process_video_batch` (lines 82-102): true when
`last_video_batch` is `None`, otherwise when the elapsed seconds since it
reach the configured window. -/
def should_process_video_batch (last_video_batch : Option Int)
    (now video_time_window : Int) : Bool :=
  match last_video_batch with
  | none => true
  | some last_batch => decide (now - last_batch ≥ video_time_window)

/-- Trigger rule `BatchManager.should_process_image_batch` (lines 104-121): true when the
pending count reaches the configured batch size. -/
def should_process_image_batch (pending_count image_batch_size : Int) : Bool :=
  decide (pending_count ≥ image_batch_size)

/-- The loop body of `BatchManager.mark_files_processed` (lines 130-132):
append each filename not already present. -/
def mark_files_processed_list (filenames processed : List String) :
    List String :=
  filenames.foldl (fun acc filename =>
    if filename ∈ acc then acc else acc ++ [filename]) processed

/-- Constant `max_files` in `BatchManager.cleanup_old_state` (line 242). -/
def cleanup_max_files : Nat := 10000

/-- The state-mutating operations of `BatchManager`, each carrying the
`datetime.now()` instant it reads where relevant. -/
inductive BatchOp where
  | mark_files_processed (filenames : List String)
  | update_video_batch_time (now : Int)
  | update_image_batch_processed (count : Nat)
  | update_statistics (records_processed : Nat) (now : Int)
  | cleanup_old_state
  | reset_state
  deriving Repr, DecidableEq

/-- One `BatchManager` mutation, following `batch_manager.py` lines 123-164,
216-249 (`_save_state` persists the result and is not modelled further). -/
def applyOp (op : BatchOp) (st : EtlState) : EtlState :=
  match op with
  | .mark_files_processed filenames =>
      { st with processed_files :=
          mark_files_processed_list filenames st.processed_files }
  | .update_video_batch_time now =>
      { st with last_video_batch := some now
                statistics := { st.statistics with
                  video_batches := st.statistics.video_batches + 1 } }
  | .update_image_batch_processed _count =>
      { st with statistics := { st.statistics with
                  image_batches := st.statistics.image_batches + 1 }
                pending_images := [] }
  | .update_statistics records_processed now =>
      { st with statistics := { st.statistics with
                  total_batches := st.statistics.total_batches + 1
                  total_records := st.statistics.total_records +
                    records_processed }
                last_run := some now }
  | .cleanup_old_state =>
      if st.processed_files.length > cleanup_max_files then
        { st with processed_files :=
            st.processed_files.drop (st.processed_files.length - cleanup_max_files) }
      else st
  | .reset_state => initState

/-- A sequence of `BatchManager` mutations applied in order. -/
def applyOps (ops : List BatchOp) (st : EtlState) : EtlState :=
  ops.foldl (fun s op => applyOp op s) st

end ProyectoBSG

namespace ProyectoBSG

/-! ## Loader, row level (`etl_system/loader.py`)

A warehouse row is modelled as its `detection_id` string paired with a payload
tag distinguishing otherwise-identical rows.  The Hive connection is modelled
by outcome parameters: `fetch_ok` is whether the `SELECT detection_id` read in
`get_existing_detection_ids` succeeds, `bulk_ok` whether the `LOAD DATA`
statement in `load_batch` succeeds, and `chunk_ok i` whether the `i`-th
fallback `INSERT` chunk succeeds.  The column alignment performed by
`load_batch` (lines 113-153) is modelled separately at schema level below; it
carries each row over one-to-one, so rows are written verbatim here. -/

abbrev Row := String × Nat

/-- Read of `HiveLoader.get_existing_detection_ids` (lines 234-244): on
success, the ids of every warehouse row; on any exception, the empty set. -/
def get_existing_detection_ids (warehouse : List Row) (fetch_ok : Bool) :
    List String :=
  if fetch_ok then warehouse.map Prod.fst else []

/-- The chunked-INSERT fallback loop of `HiveLoader.load_batch`
(lines 183-208): chunks of 100 rows; a failed chunk is logged and skipped,
a successful one is written and counted. -/
def load_batch_fallback (warehouse df : List Row) (chunk_ok : Nat → Bool) :
    Nat × List Row :=
  (List.range ((df.length + 99) / 100)).foldl
    (fun acc i =>
      let batch_df := (df.drop (100 * i)).take 100
      if chunk_ok i then (acc.1 + batch_df.length, acc.2 ++ batch_df) else acc)
    (0, warehouse)

/-- Write path of `HiveLoader.load_batch` (lines 108-220): empty frame loads
nothing; otherwise try the bulk `LOAD DATA` (writing every row), falling back
to chunked INSERTs when it fails. -/
def load_batch (warehouse df : List Row) (bulk_ok : Bool)
    (chunk_ok : Nat → Bool) : Nat × List Row :=
  if df.isEmpty then (0, warehouse)
  else if bulk_ok then (df.length, warehouse ++ df)
  else load_batch_fallback warehouse df chunk_ok

/-- Dedup filter and load of `HiveLoader.load_with_deduplication`
(lines 222-232): drop rows whose id is in the fetched existing-id set, return
0 when nothing is left, otherwise delegate to `load_batch`. -/
def load_with_deduplication (warehouse df : List Row)
    (fetch_ok bulk_ok : Bool) (chunk_ok : Nat → Bool) : Nat × List Row :=
  if df.isEmpty then (0, warehouse)
  else
    let existing_ids := get_existing_detection_ids warehouse fetch_ok
    let df_new := df.filter (fun r => !decide (r.1 ∈ existing_ids))
    if df_new.isEmpty then (0, warehouse)
    else load_batch warehouse df_new bulk_ok chunk_ok

/-! ## Loader, column level (`etl_system/loader.py` lines 108-153)

The schema-alignment part of `load_batch` is modelled on a column-oriented
frame: a row count plus an association list from column name to the column's
cells (`none` is a null/NaN cell).  Column selection takes the first column
with a matching label, which agrees with pandas on every frame whose labels
are distinct. -/

abbrev Cell := Option String

structure Frame where
  nrows : Nat
  cols : List (String × List Cell)
  deriving Repr, DecidableEq

/-- Column assignment `df[name] = values`: replace the first column with that
label, or append a new column at the end. -/
def assignCol (cols : List (String × List Cell)) (name : String)
    (v : List Cell) : List (String × List Cell) :=
  match cols with
  | [] => [(name, v)]
  | c :: cs => if c.1 = name then (name, v) :: cs else c :: assignCol cs name v

/-- Scalar column read `df[name]`: the first column with that label
(all-null when absent).  This matches a pandas Series read on frames whose
labels are distinct; on a duplicated label pandas returns a sub-frame
instead, and the one such read the code performs
(`pd.to_datetime(df["detection_timestamp"])`, line 130) then raises. -/
def getCol (cols : List (String × List Cell)) (name : String) (nrows : Nat) :
    List Cell :=
  match cols.find? (fun c => c.1 == name) with
  | some c => c.2
  | none => List.replicate nrows none

/-- Renaming `df.rename(columns={old: new})` applied to every label. -/
def renameCol (cols : List (String × List Cell)) (old new : String) :
    List (String × List Cell) :=
  cols.map (fun c => if c.1 = old then (new, c.2) else c)

/-- Alternate-to-canonical column names, `rename_map` in `load_batch`
(lines 116-123). -/
def rename_map : List (String × String) :=
  [("timestamp", "detection_timestamp"),
   ("filename", "source_filename"),
   ("_extracted_at", "extracted_at"),
   ("_processed_at", "processed_at"),
   ("_loaded_at", "loaded_at"),
   ("_source_file", "source_csv_file")]

/-- Canonical warehouse schema, `expected_columns` in `load_batch`
(lines 136-146). -/
def expected_columns : List String :=
  ["detection_id", "source_type", "source_file", "source_filename",
   "detection_timestamp", "frame_number", "frame_timestamp", "class_id",
   "class_name", "confidence", "bbox_x1", "bbox_y1", "bbox_x2", "bbox_y2",
   "bbox_width", "bbox_height", "bbox_area", "center_x", "center_y",
   "normalized_x1", "normalized_y1", "normalized_x2", "normalized_y2",
   "aspect_ratio", "relative_area", "image_width", "image_height",
   "detection_index", "size_category", "confidence_category",
   "horizontal_position", "vertical_position", "extracted_at",
   "processed_at", "loaded_at", "source_csv_file", "processing_date"]

/-- Stage 1 of `load_batch`: `df["loaded_at"] = datetime.now().isoformat()`
(line 114). -/
def stampLoadedAt (df : Frame) (now_iso : String) : Frame :=
  let v := List.replicate df.nrows (some now_iso)
  { df with cols := assignCol df.cols "loaded_at" v }

/-- Stage 2 of `load_batch`: the rename loop over `rename_map`
(lines 125-127), each rename applied only when the alternate label is
present. -/
def applyRenames (df : Frame) : Frame :=
  let cs := rename_map.foldl
    (fun cs p =>
      if (cs.map Prod.fst).contains p.1 then renameCol cs p.1 p.2 else cs)
    df.cols
  { df with cols := cs }

/-- Stage 3 of `load_batch`: derive `processing_date` (lines 129-134) from
`detection_timestamp`, else from `timestamp`, else from the load date.
`dateOf` models `pd.to_datetime(...).dt.strftime` on one cell. -/
def addProcessingDate (df : Frame) (dateOf : Cell → Cell)
    (today : String) : Frame :=
  if (df.cols.map Prod.fst).contains "detection_timestamp" then
    let v := (getCol df.cols "detection_timestamp" df.nrows).map dateOf
    { df with cols := assignCol df.cols "processing_date" v }
  else if (df.cols.map Prod.fst).contains "timestamp" then
    let v := (getCol df.cols "timestamp" df.nrows).map dateOf
    { df with cols := assignCol df.cols "processing_date" v }
  else
    let v := List.replicate df.nrows (some today)
    { df with cols := assignCol df.cols "processing_date" v }

/-- Stage 4 of `load_batch`: insert an all-null column for every expected
column that is absent (lines 148-150). -/
def fillMissing (df : Frame) : Frame :=
  let cs := expected_columns.foldl
    (fun cs col =>
      if (cs.map Prod.fst).contains col then cs
      else cs ++ [(col, List.replicate df.nrows none)])
    df.cols
  { df with cols := cs }

/-- Stage 5 of `load_batch`: `df = df[expected_columns]` (line 152).
Pandas label-list selection returns, for each requested label in order,
every column of the frame whose label matches it (in frame order), so a
duplicated label contributes all its columns. -/
def selectExpected (df : Frame) : Frame :=
  let cs := expected_columns.flatMap
    (fun c => df.cols.filter (fun x => x.1 == c))
  { df with cols := cs }

/-- The full column-alignment pipeline of `load_batch` before writing
(lines 113-153). -/
def prepare_for_load (df : Frame) (dateOf : Cell → Cell)
    (now_iso today : String) : Frame :=
  selectExpected (fillMissing (addProcessingDate (applyRenames
    (stampLoadedAt df now_iso)) dateOf today))

end ProyectoBSG

namespace ProyectoBSG

/-! ## Orchestrator (`scripts/run_etl.py`) and scheduler
(`etl_system/batch_manager.py` lines 252-308)

The staging area is a list of CSV files; a file whose `rows` field is `none`
raises on read and is skipped by `DataExtractor.extract_multiple`
(`extractor.py` lines 92-98).  The transformer (module not under version
control here; the spec treats it as an external collaborator) and the loader
are passed as `Except`-valued functions, so every possible success or failure
of those steps is covered by quantification. -/

inductive SourceType where
  | video
  | image
  deriving Repr, DecidableEq

/-- Filename tag `f"{source_type}_"` used by `scan_staging_files`
(`extractor.py` lines 40-46) and `get_pending_files`
(`batch_manager.py` line 183). -/
def typeTag : SourceType → String
  | .video => "video_"
  | .image => "image_"

/-- Python `str.startswith`, expressed on character lists. -/
def str_starts_with (s p : String) : Bool := p.data.isPrefixOf s.data

structure StagedFile where
  name : String
  rows : Option (List Row)
  deriving Repr, DecidableEq

/-- Classification of `DataExtractor.scan_staging_files` (lines 29-54)
restricted to one source type; files matching neither tag land in `unknown`
and are never selected. -/
def scan_staging_files (env : List StagedFile) (t : SourceType) :
    List StagedFile :=
  env.filter (fun f => str_starts_with f.name (typeTag t))

/-- Selection of `BatchManager.get_pending_files` (lines 166-186): files not
yet processed, then filtered by source-type tag. -/
def get_pending_files (st : EtlState) (all_files : List String)
    (t : SourceType) : List String :=
  let pending := all_files.filter (fun f => !decide (f ∈ st.processed_files))
  pending.filter (fun f => str_starts_with f (typeTag t))

/-- Concatenation of `DataExtractor.extract_multiple` (lines 80-107): an
unreadable file is logged and skipped, never fatal. -/
def extract_multiple (files : List StagedFile) : List Row :=
  files.flatMap (fun f => f.rows.getD [])

inductive PipeAction where
  | extracted (nrows : Nat)
  | transformed (nrows : Nat)
  | loaded (n : Nat)
  | state_updated
  deriving Repr, DecidableEq

structure PipeResult where
  state : EtlState
  trace : List PipeAction
  error : Option String
  deriving Repr, DecidableEq

/-- One invocation of `run_etl_pipeline` (`run_etl.py` lines 43-127) for one
source type: scan, filter pending, extract, transform, load with
deduplication, then - only after a successful load - mark files processed,
bump statistics, and reset the per-type batch clock/counter.  An exception
from transform or load propagates (line 127 re-raises) with the state
untouched. -/
def run_etl_pipeline (t : SourceType) (env : List StagedFile) (st : EtlState)
    (transform : List Row → Except String (List Row))
    (load_with_dedup : List Row → Except String Nat) (now : Int) :
    PipeResult :=
  let all_t := scan_staging_files env t
  let pending := get_pending_files st (all_t.map (fun f => f.name)) t
  if pending.isEmpty then { state := st, trace := [], error := none }
  else
    let files_to_process := all_t.filter (fun f => pending.contains f.name)
    let df_raw := extract_multiple files_to_process
    if df_raw.isEmpty then
      { state := st, trace := [.extracted 0], error := none }
    else
      match transform df_raw with
      | .error e =>
          { state := st, trace := [.extracted df_raw.length], error := some e }
      | .ok df_transformed =>
          match load_with_dedup df_transformed with
          | .error e =>
              { state := st,
                trace := [.extracted df_raw.length,
                          .transformed df_transformed.length],
                error := some e }
          | .ok loaded_count =>
              let st1 := applyOp (.mark_files_processed pending) st
              let st2 := applyOp (.update_statistics loaded_count now) st1
              let st3 :=
                match t with
                | .video => applyOp (.update_video_batch_time now) st2
                | .image =>
                    applyOp (.update_image_batch_processed pending.length) st2
              { state := st3,
                trace := [.extracted df_raw.length,
                          .transformed df_transformed.length,
                          .loaded loaded_count, .state_updated],
                error := none }

inductive SourceArg where
  | video
  | image
  | all
  deriving Repr, DecidableEq

/-- One-shot mode of `main` (`run_etl.py` lines 286-294): the pipeline is run
directly for the requested source type(s); with `all`, a video-run exception
skips the image run (the enclosing `try` at lines 264-300). -/
def main_one_shot (arg : SourceArg) (env : List StagedFile) (st : EtlState)
    (transform : List Row → Except String (List Row))
    (load_with_dedup : List Row → Except String Nat) (now : Int) :
    PipeResult :=
  match arg with
  | .video => run_etl_pipeline .video env st transform load_with_dedup now
  | .image => run_etl_pipeline .image env st transform load_with_dedup now
  | .all =>
      let r1 := run_etl_pipeline .video env st transform load_with_dedup now
      match r1.error with
      | some _ => r1
      | none =>
          let r2 :=
            run_etl_pipeline .image env r1.state transform load_with_dedup now
          { state := r2.state, trace := r1.trace ++ r2.trace,
            error := r2.error }

structure SchedResult where
  state : EtlState
  invoked : List (SourceType × List PipeAction)
  deriving Repr, DecidableEq

/-- Image half of one `BatchScheduler.run` iteration (lines 286-292): read
`len(state["pending_images"])` and invoke the image callback when the
count trigger fires. -/
def scheduler_image_check (env : List StagedFile) (st : EtlState)
    (inv : List (SourceType × List PipeAction))
    (transform : List Row → Except String (List Row))
    (load_with_dedup : List Row → Except String Nat) (now : Int)
    (image_batch_size : Int) : SchedResult :=
  if should_process_image_batch st.pending_images.length image_batch_size then
    let r := run_etl_pipeline .image env st transform load_with_dedup now
    { state := r.state, invoked := inv ++ [(SourceType.image, r.trace)] }
  else { state := st, invoked := inv }

/-- One iteration of the continuous-mode poll loop `BatchScheduler.run`
(lines 279-296): evaluate the video trigger, invoke the video callback when
ready, then evaluate the image trigger on the resulting state.  An exception
from the video callback is caught by the iteration `except` (lines 301-303),
so the image check of that iteration is skipped. -/
def scheduler_iteration (env : List StagedFile) (st : EtlState)
    (transform : List Row → Except String (List Row))
    (load_with_dedup : List Row → Except String Nat) (now : Int)
    (video_time_window image_batch_size : Int) : SchedResult :=
  if should_process_video_batch st.last_video_batch now video_time_window then
    let r := run_etl_pipeline .video env st transform load_with_dedup now
    match r.error with
    | some _ => { state := r.state, invoked := [(SourceType.video, r.trace)] }
    | none =>
        scheduler_image_check env r.state [(SourceType.video, r.trace)]
          transform load_with_dedup now image_batch_size
  else
    scheduler_image_check env st [] transform load_with_dedup now
      image_batch_size

end ProyectoBSG

namespace ProyectoBSG

/-! ## Detection-id derivation (`classification_system/detector.py`)

`ObjectDetector._generate_detection_id` (lines 146-168) hashes the string
`f"{source}:{frame_number}:{timestamp}:{idx}"` with MD5 and returns the
lowercase hex digest.  MD5 (RFC 1321) is implemented below over `Nat` with
explicit reduction modulo `2^32`; `utf8Bytes` is the UTF-8 encoding performed
by `str.encode()`.  The implementation is checked against `hashlib.md5`
reference digests in the theorems section. -/

def hexChar (n : Nat) : Char := Nat.digitChar (n % 16)

def encodeChar (c : Char) : List Nat :=
  let n := c.toNat
  if n < 128 then [n]
  else if n < 2048 then [192 ||| (n >>> 6), 128 ||| (n &&& 63)]
  else if n < 65536 then
    [224 ||| (n >>> 12), 128 ||| ((n >>> 6) &&& 63), 128 ||| (n &&& 63)]
  else
    [240 ||| (n >>> 18), 128 ||| ((n >>> 12) &&& 63), 128 ||| ((n >>> 6) &&& 63),
     128 ||| (n &&& 63)]

def utf8Bytes (s : String) : List Nat := s.data.flatMap encodeChar

def add32 (x y : Nat) : Nat := (x + y) % 4294967296

def not32 (x : Nat) : Nat := x ^^^ 4294967295

def rotl32 (x s : Nat) : Nat := ((x <<< s) ||| (x >>> (32 - s))) % 4294967296

def md5K : List Nat :=
  [3614090360, 3905402710, 606105819, 3250441966,
   4118548399, 1200080426, 2821735955, 4249261313,
   1770035416, 2336552879, 4294925233, 2304563134,
   1804603682, 4254626195, 2792965006, 1236535329,
   4129170786, 3225465664, 643717713, 3921069994,
   3593408605, 38016083, 3634488961, 3889429448,
   568446438, 3275163606, 4107603335, 1163531501,
   2850285829, 4243563512, 1735328473, 2368359562,
   4294588738, 2272392833, 1839030562, 4259657740,
   2763975236, 1272893353, 4139469664, 3200236656,
   681279174, 3936430074, 3572445317, 76029189,
   3654602809, 3873151461, 530742520, 3299628645,
   4096336452, 1126891415, 2878612391, 4237533241,
   1700485571, 2399980690, 4293915773, 2240044497,
   1873313359, 4264355552, 2734768916, 1309151649,
   4149444226, 3174756917, 718787259, 3951481745]

def md5S : List Nat :=
  [7, 12, 17, 22, 7, 12, 17, 22, 7, 12, 17, 22, 7, 12, 17, 22,
   5, 9, 14, 20, 5, 9, 14, 20, 5, 9, 14, 20, 5, 9, 14, 20,
   4, 11, 16, 23, 4, 11, 16, 23, 4, 11, 16, 23, 4, 11, 16, 23,
   6, 10, 15, 21, 6, 10, 15, 21, 6, 10, 15, 21, 6, 10, 15, 21]

def md5Pad (msg : List Nat) : List Nat :=
  let bitLen := 8 * msg.length
  let zeros := (119 - msg.length % 64) % 64
  msg ++ [128] ++ List.replicate zeros 0 ++
    (List.range 8).map (fun i => (bitLen >>> (8 * i)) % 256)

def wordAt (block : List Nat) (j : Nat) : Nat :=
  (block.getD (4 * j) 0) % 256 + 256 * ((block.getD (4 * j + 1) 0) % 256) +
    65536 * ((block.getD (4 * j + 2) 0) % 256) +
    16777216 * ((block.getD (4 * j + 3) 0) % 256)

abbrev Md5Reg := Nat × Nat × Nat × Nat

def md5Round (block : List Nat) (r : Md5Reg) (i : Nat) : Md5Reg :=
  let (a, b, c, d) := r
  let f :=
    if i < 16 then (b &&& c) ||| (not32 b &&& d)
    else if i < 32 then (b &&& d) ||| (c &&& not32 d)
    else if i < 48 then b ^^^ c ^^^ d
    else c ^^^ (b ||| not32 d)
  let g :=
    if i < 16 then i
    else if i < 32 then (5 * i + 1) % 16
    else if i < 48 then (3 * i + 5) % 16
    else (7 * i) % 16
  let rotated := rotl32 (add32 (add32 a f) (add32 (md5K.getD i 0) (wordAt block g)))
    (md5S.getD i 0)
  (d, add32 b rotated, b, c)

def md5Block (r : Md5Reg) (block : List Nat) : Md5Reg :=
  let (a0, b0, c0, d0) := r
  let (a, b, c, d) := (List.range 64).foldl (md5Round block) r
  (add32 a0 a, add32 b0 b, add32 c0 c, add32 d0 d)

def md5Init : Md5Reg := (1732584193, 4023233417, 2562383102, 271733878)

def md5Words (msg : List Nat) : Md5Reg :=
  let padded := md5Pad msg
  (List.range (padded.length / 64)).foldl
    (fun r i => md5Block r ((padded.drop (64 * i)).take 64)) md5Init

def toBytesLE (w : Nat) : List Nat :=
  [w % 256, (w >>> 8) % 256, (w >>> 16) % 256, (w >>> 24) % 256]

def md5Bytes (msg : List Nat) : List Nat :=
  let (a, b, c, d) := md5Words msg
  toBytesLE a ++ toBytesLE b ++ toBytesLE c ++ toBytesLE d

def md5DigestNat (msg : List Nat) : Nat :=
  (md5Bytes msg).foldr (fun b acc => b % 256 + 256 * acc) 0

def byteToHex (b : Nat) : List Char := [hexChar (b / 16), hexChar b]

def hexOfDigest (n : Nat) : String :=
  String.mk (((List.range 16).map (fun i => n / 256 ^ i % 256)).flatMap byteToHex)

def md5Hex (msg : List Nat) : String := hexOfDigest (md5DigestNat msg)

/-- Decimal digit character used by string formatting of naturals. -/
def decDigitChar (d : Nat) : Char := Nat.digitChar (d % 10)

/-- Numeric value of a decimal digit character. -/
def decDigitVal (c : Char) : Nat := c.toNat - 48

/-- Fuel-indexed decimal digits of a natural, least-significant first; the
fuel `n + 1` always suffices. -/
def decDigitsRevAux : Nat → Nat → List Char
  | 0, _ => []
  | fuel + 1, n =>
      if n < 10 then [decDigitChar n]
      else decDigitChar (n % 10) :: decDigitsRevAux fuel (n / 10)

/-- Decimal rendering of a natural number, as produced by Python `str` /
f-string formatting of a non-negative int. -/
def decRepr (n : Nat) : String :=
  String.mk (decDigitsRevAux (n + 1) n).reverse

/-- Decimal re-evaluation of a least-significant-first digit list; used to
establish that `decRepr` is injective. -/
def evalDecRev : List Char → Nat
  | [] => 0
  | c :: cs => decDigitVal c + 10 * evalDecRev cs

/-- Fields of the `source_info` dict that `_generate_detection_id` reads;
a missing `frame_number` key defaults to `0` via `.get("frame_number", 0)`. -/
structure SourceInfo where
  source : String
  frame_number : Option Nat
  timestamp : String
  deriving Repr, DecidableEq

/-- String rendering of `source_info.get("frame_number", 0)`. -/
def frameField (si : SourceInfo) : String :=
  match si.frame_number with
  | none => "0"
  | some n => decRepr n

/-- Pre-hash string `unique_string` of `_generate_detection_id`
(lines 159-164). -/
def unique_string (si : SourceInfo) (idx : Nat) : String :=
  si.source ++ ":" ++ frameField si ++ ":" ++ si.timestamp ++ ":" ++
    decRepr idx

/-- Function `ObjectDetector._generate_detection_id` (lines 146-168): the MD5
hex digest of `unique_string`. -/
def generate_detection_id (si : SourceInfo) (idx : Nat) : String :=
  md5Hex (utf8Bytes (unique_string si idx))

/-- Digest value underlying `generate_detection_id`, named so that theorems
can treat it opaquely. -/
def idDigest (si : SourceInfo) (idx : Nat) : Nat :=
  md5DigestNat (utf8Bytes (unique_string si idx))

/-- The `source_info` used by `test_generate_detection_id` in
`tests/test_classification/test_detector.py` (lines 33-46). -/
def testSourceInfo : SourceInfo :=
  { source := "test.mp4", frame_number := some 10,
    timestamp := "2024-01-01T00:00:00" }

end ProyectoBSG

namespace ProyectoBSG

/-- Probe file name of a given length, used to exercise
`cleanup_old_state`. -/
def repFile (i : Nat) : String := String.mk (List.replicate i 'a')

/-- A staging history of 10001 distinct file names. -/
def probeFiles : List String := (List.range 10001).map repFile

/-- A concrete upstream-shaped frame: canonical id column, the alternate
`timestamp` column and a `confidence` column, one row. -/
def sampleFrame : Frame :=
  { nrows := 1
    cols := [("detection_id", [some "ID1"]),
             ("timestamp", [some "2024-01-01T00:00:00"]),
             ("confidence", [some "0.9"])] }

/-- A concrete frame carrying both the alternate `filename` label and its
canonical target `source_filename`, one row. -/
def dupFrame : Frame :=
  { nrows := 1
    cols := [("detection_id", [some "ID1"]),
             ("filename", [some "F.csv"]),
             ("source_filename", [some "G.csv"])] }

/-! ## Theorems

Helper lemmas come first, then for each specified property its theorem (and,
where the statement carries hypotheses, a concrete witness discharging
them). -/

theorem evalDecRev_decDigitsRevAux :
    ∀ (fuel n : Nat), n < fuel →
      evalDecRev (decDigitsRevAux fuel n) = n := by
  intro fuel
  induction fuel with
  | zero => intro n h; omega
  | succ fuel ih =>
      intro n h
      unfold decDigitsRevAux
      by_cases h10 : n < 10
      · simp only [if_pos h10, evalDecRev]
        have hv : decDigitVal (decDigitChar n) = n := by
          interval_cases n <;> rfl
        omega
      · simp only [if_neg h10, evalDecRev]
        have hrec : evalDecRev (decDigitsRevAux fuel (n / 10)) = n / 10 := by
          apply ih
          have h1 : n / 10 < n := Nat.div_lt_self (by omega) (by omega)
          omega
        have hv : decDigitVal (decDigitChar (n % 10)) = n % 10 := by
          have : n % 10 < 10 := Nat.mod_lt _ (by omega)
          interval_cases h : (n % 10) <;> rfl
        rw [hrec, hv]
        omega

theorem decRepr_data_inj {m n : Nat}
    (h : (decRepr m).data = (decRepr n).data) : m = n := by
  have hdigits : decDigitsRevAux (m + 1) m = decDigitsRevAux (n + 1) n := by
    have : (decDigitsRevAux (m + 1) m).reverse =
        (decDigitsRevAux (n + 1) n).reverse := by
      simpa [decRepr] using h
    simpa using this
  have := congrArg evalDecRev hdigits
  rwa [evalDecRev_decDigitsRevAux (m + 1) m (by omega),
       evalDecRev_decDigitsRevAux (n + 1) n (by omega)] at this

theorem unique_string_injective_idx (si : SourceInfo) (i j : Nat)
    (h : unique_string si i = unique_string si j) : i = j := by
  have hdata := congrArg String.data h
  simp only [unique_string, String.data_append, List.append_assoc,
    List.append_cancel_left_eq] at hdata
  exact decRepr_data_inj hdata

theorem md5_matches_hashlib_empty :
    md5Hex (utf8Bytes "") = "d41d8cd98f00b204e9800998ecf8427e" := by
  decide

theorem md5_matches_hashlib_abc :
    md5Hex (utf8Bytes "abc") = "900150983cd24fb0d6963f7d28e17f72" := by
  decide

theorem md5_matches_hashlib_multiblock :
    md5Hex (utf8Bytes (String.mk (List.replicate 200 'a'))) =
      "887f30b43b2867f4a9accceee7d16e6c" := by
  decide

theorem md5Bytes_length (msg : List Nat) : (md5Bytes msg).length = 16 := by
  rcases hw : md5Words msg with ⟨a, b, c, d⟩
  simp [md5Bytes, hw, toBytesLE]

theorem foldr_byte_lt (l : List Nat) :
    l.foldr (fun b acc => b % 256 + 256 * acc) 0 < 256 ^ l.length := by
  induction l with
  | nil => simp
  | cons b l ih =>
      simp only [List.foldr_cons, List.length_cons, pow_succ]
      omega

theorem md5DigestNat_lt (msg : List Nat) : md5DigestNat msg < 256 ^ 16 := by
  unfold md5DigestNat
  have h := foldr_byte_lt (md5Bytes msg)
  rwa [md5Bytes_length] at h

/-- C8 counterexample: `detection_id` values are 128-bit MD5 digests, so the
map from detection index to id for a fixed `source_info` takes infinitely
many indices into finitely many digests; by the pigeonhole principle two
distinct indices must share an id, refuting "calls with two different idx
values yield two different ids" as a universal statement. -/
theorem generate_detection_id_eq_hex (si : SourceInfo) (idx : Nat) :
    generate_detection_id si idx = hexOfDigest (idDigest si idx) := rfl

theorem idDigest_lt (si : SourceInfo) (idx : Nat) :
    idDigest si idx < 256 ^ 16 :=
  md5DigestNat_lt _

attribute [irreducible] idDigest

theorem C8_counterexample :
    ¬ ∀ (si : SourceInfo) (i j : Nat), i ≠ j →
        generate_detection_id si i ≠ generate_detection_id si j := by
  intro hclaim
  obtain ⟨i, j, hne, heq⟩ := Finite.exists_ne_map_eq_of_infinite
    (fun idx : Nat =>
      (⟨idDigest testSourceInfo idx, idDigest_lt _ _⟩ : Fin (256 ^ 16)))
  have hdig : idDigest testSourceInfo i = idDigest testSourceInfo j :=
    congrArg Fin.val heq
  apply hclaim testSourceInfo i j hne
  rw [generate_detection_id_eq_hex, generate_detection_id_eq_hex, hdig]

/-- C8 (amended): `generate_detection_id` called twice with identical
arguments yields the identical id; for the same `source_info`, two different
detection indices always yield two different pre-hash strings, and on the
repository unit test's `source_info` the ids for idx 0 and 1 are distinct and
match the `hashlib.md5` reference digests.  (Distinct ids for all idx pairs
cannot hold, the digest space being finite - see the counterexample.) -/
theorem C8_detection_id_determinism :
    (∀ (si : SourceInfo) (idx : Nat),
        generate_detection_id si idx = generate_detection_id si idx) ∧
    (∀ (si : SourceInfo) (i j : Nat), i ≠ j →
        unique_string si i ≠ unique_string si j) ∧
    (generate_detection_id testSourceInfo 0 ≠
        generate_detection_id testSourceInfo 1 ∧
      generate_detection_id testSourceInfo 0 =
        "437d50e4035c555c8f9b23834a549420" ∧
      generate_detection_id testSourceInfo 1 =
        "9e8cfee9000215457e23217353ebfa86") := by
  refine ⟨fun si idx => rfl, ?_, ?_, ?_, ?_⟩
  · intro si i j hne heq
    exact hne (unique_string_injective_idx si i j heq)
  · decide
  · decide
  · decide

theorem C8_detection_id_determinism_witness :
    unique_string testSourceInfo 0 ≠ unique_string testSourceInfo 1 :=
  C8_detection_id_determinism.2.1 testSourceInfo 0 1 (by decide)

/-- C5: `should_process_image_batch(k)` is true iff `k >= N`; at the
boundary, a pending count of exactly `N` triggers and `N - 1` does not,
independent of any elapsed time. -/
theorem C5_image_trigger_iff (k N : Int) :
    (should_process_image_batch k N = true ↔ k ≥ N) ∧
    should_process_image_batch N N = true ∧
    should_process_image_batch (N - 1) N = false := by
  refine ⟨?_, ?_, ?_⟩
  · simp [should_process_image_batch]
  · simp [should_process_image_batch]
  · simp [should_process_image_batch]

/-- C4 counterexample: with a configured window of `0` seconds, the video
trigger is already true immediately after `update_video_batch_time`
(elapsed `0 >= 0`), so "immediately after update_video_batch_time() is
called it returns false" fails for that configured window. -/
theorem C4_counterexample :
    ¬ ∀ (W : Int),
        should_process_video_batch
          ((applyOp (.update_video_batch_time 0) initState).last_video_batch)
          0 W = false := by
  intro h
  exact absurd (h 0) (by decide)

/-- C4 (amended): `should_process_video_batch` is true iff
`last_video_batch` is unset or the elapsed time reaches the window; for
every positive configured window `W`, immediately after
`update_video_batch_time` it returns false, and once `W` seconds have
elapsed with no further video batch it returns true.  (For `W = 0` the
trigger is already true immediately after the update - see the
counterexample.) -/
theorem C4_video_trigger :
    (∀ (last : Option Int) (now W : Int),
        should_process_video_batch last now W = true ↔
          (last = none ∨ ∃ t, last = some t ∧ now - t ≥ W)) ∧
    (∀ (st : EtlState) (now W : Int), 0 < W →
        should_process_video_batch
          ((applyOp (.update_video_batch_time now) st).last_video_batch)
          now W = false) ∧
    (∀ (st : EtlState) (now W : Int),
        should_process_video_batch
          ((applyOp (.update_video_batch_time now) st).last_video_batch)
          (now + W) W = true) := by
  refine ⟨?_, ?_, ?_⟩
  · intro last now W
    cases last with
    | none => simp [should_process_video_batch]
    | some t => simp [should_process_video_batch]
  · intro st now W hW
    simp only [applyOp, should_process_video_batch,
      decide_eq_false_iff_not]
    omega
  · intro st now W
    simp only [applyOp, should_process_video_batch, decide_eq_true_eq]
    omega

theorem C4_video_trigger_witness :
    should_process_video_batch
      ((applyOp (.update_video_batch_time 100) initState).last_video_batch)
      100 300 = false :=
  C4_video_trigger.2.1 initState 100 300 (by decide)

theorem foldl_chunks_spec (f : Nat → List Row) (ok : Nat → Bool) :
    ∀ (l : List Nat) (t0 : Nat) (w0 : List Row),
      l.foldl (fun acc i =>
          if ok i then (acc.1 + (f i).length, acc.2 ++ f i) else acc) (t0, w0)
        = (t0 + ((l.filter ok).flatMap f).length,
           w0 ++ (l.filter ok).flatMap f) := by
  intro l
  induction l with
  | nil => intro t0 w0; simp
  | cons a l ih =>
      intro t0 w0
      cases h : ok a with
      | false =>
          simp only [List.foldl_cons, h, List.filter_cons, ite_false,
            Bool.false_eq_true, if_false]
          exact ih t0 w0
      | true =>
          simp only [List.foldl_cons, h, List.filter_cons, if_true,
            List.flatMap_cons]
          rw [ih]
          simp [List.append_assoc, Nat.add_assoc]

theorem flatMap_chunks_take (df : List Row) :
    ∀ k : Nat,
      (List.range k).flatMap (fun i => (df.drop (100 * i)).take 100)
        = df.take (100 * k) := by
  intro k
  induction k with
  | zero => simp
  | succ k ih =>
      rw [List.range_succ, List.flatMap_append, ih]
      have h1 : (df.drop (100 * k)).take 100
          = (df.take (100 * k + 100)).drop (100 * k) := by
        rw [List.take_drop]
      have h2 : df.take (100 * k)
          = (df.take (100 * k + 100)).take (100 * k) := by
        rw [List.take_take]
        congr 1
        omega
      have h3 : 100 * (k + 1) = 100 * k + 100 := by omega
      simp only [List.flatMap_cons, List.flatMap_nil, List.append_nil]
      rw [h3, h1, h2, List.take_append_drop]

theorem flatMap_num_chunks (df : List Row) :
    (List.range ((df.length + 99) / 100)).flatMap
        (fun i => (df.drop (100 * i)).take 100) = df := by
  rw [flatMap_chunks_take]
  apply List.take_of_length_le
  have h := Nat.div_add_mod (df.length + 99) 100
  have h2 : (df.length + 99) % 100 < 100 := Nat.mod_lt _ (by omega)
  omega

theorem filter_flatMap_sublist (f : Nat → List Row) (ok : Nat → Bool) :
    ∀ l : List Nat, ((l.filter ok).flatMap f).Sublist (l.flatMap f) := by
  intro l
  induction l with
  | nil => simp
  | cons a l ih =>
      cases h : ok a with
      | false =>
          simp only [List.filter_cons, h, Bool.false_eq_true, if_false,
            List.flatMap_cons]
          exact ih.trans (List.sublist_append_right _ _)
      | true =>
          simp only [List.filter_cons, h, if_true, List.flatMap_cons]
          exact ih.append_left (f a)

theorem load_batch_spec (warehouse df : List Row) (bulk_ok : Bool)
    (chunk_ok : Nat → Bool) :
    ∃ w : List Row, w.Sublist df ∧
      load_batch warehouse df bulk_ok chunk_ok = (w.length, warehouse ++ w) ∧
      (bulk_ok = true → w = df) := by
  by_cases hdf : df.isEmpty
  · refine ⟨[], List.nil_sublist _, ?_, ?_⟩
    · simp [load_batch, hdf]
    · intro _
      rw [List.isEmpty_iff] at hdf
      exact hdf.symm
  · cases hbulk : bulk_ok with
    | true =>
        exact ⟨df, List.Sublist.refl _, by simp [load_batch, hdf], fun _ => rfl⟩
    | false =>
        refine ⟨(((List.range ((df.length + 99) / 100)).filter
            chunk_ok).flatMap (fun i => (df.drop (100 * i)).take 100)),
          ?_, ?_, ?_⟩
        · have h := filter_flatMap_sublist
            (fun i => (df.drop (100 * i)).take 100) chunk_ok
            (List.range ((df.length + 99) / 100))
          rwa [flatMap_num_chunks] at h
        · simp only [load_batch, hdf, Bool.false_eq_true, if_false,
            load_batch_fallback]
          rw [foldl_chunks_spec (fun i => (df.drop (100 * i)).take 100)
            chunk_ok (List.range ((df.length + 99) / 100)) 0 warehouse]
          simp
        · intro h
          cases h

/-- C1 counterexample: starting from a warehouse whose ids are unique, a load
performed after a failure of the existing-id read (which
`get_existing_detection_ids` converts to the empty set, lines 242-244)
re-inserts an id that is already present, so the 'at most one row per
detection_id' invariant is not preserved by such a load. -/
theorem C1_counterexample :
    ((([(("a" : String), 0)] : List Row).map Prod.fst).Nodup) ∧
      ¬ (((load_with_deduplication [("a", 0)] [("a", 1)] false true
            (fun _ => true)).2.map Prod.fst).Nodup) := by
  constructor
  · decide
  · decide

/-- C1 (amended): when the existing-id read succeeds (returning the true
warehouse id set) and the batch carries pairwise-distinct ids (the
Transformer contract the Loader relies on), `load_with_deduplication`
preserves the invariant that the warehouse holds at most one row per
`detection_id` - whatever subset of the write path succeeds.  When the
existing-id read fails, the filter set is empty and duplicates can be
written (see the counterexample). -/
theorem C1_dedup_invariant (warehouse df : List Row) (bulk_ok : Bool)
    (chunk_ok : Nat → Bool)
    (hw : (warehouse.map Prod.fst).Nodup)
    (hd : (df.map Prod.fst).Nodup) :
    (((load_with_deduplication warehouse df true bulk_ok chunk_ok).2).map
        Prod.fst).Nodup := by
  by_cases hdf : df.isEmpty
  · simpa [load_with_deduplication, hdf] using hw
  · simp only [load_with_deduplication, hdf, Bool.false_eq_true, if_false]
    set existing := get_existing_detection_ids warehouse true with hex
    set df_new := df.filter (fun r => !decide (r.1 ∈ existing)) with hnew
    by_cases hempty : df_new.isEmpty
    · simpa [hempty] using hw
    · simp only [hempty, Bool.false_eq_true, if_false]
      obtain ⟨w, hsub, heq, -⟩ := load_batch_spec warehouse df_new bulk_ok
        chunk_ok
      rw [heq]
      simp only [List.map_append]
      rw [List.nodup_append]
      refine ⟨hw, ?_, ?_⟩
      · have hsubdf : w.Sublist df := hsub.trans (List.filter_sublist df)
        exact (hsubdf.map Prod.fst).nodup hd
      · intro x hxw hxnew
        simp only [List.mem_map] at hxnew
        obtain ⟨r, hr, hrx⟩ := hxnew
        have hrdf : r ∈ df_new := hsub.subset hr
        rw [hnew, List.mem_filter] at hrdf
        have : ¬ (r.1 ∈ existing) := by
          simpa using hrdf.2
        apply this
        rw [hex]
        simp only [get_existing_detection_ids, if_true]
        rw [hrx]
        exact hxw

theorem C1_dedup_invariant_witness :
    (((load_with_deduplication [(("a" : String), 0)] [("b", 1)] true true
        (fun _ => true)).2).map Prod.fst).Nodup :=
  C1_dedup_invariant [("a", 0)] [("b", 1)] true (fun _ => true)
    (by decide) (by decide)

/-- C6: on a non-empty batch, `load_with_deduplication` keeps exactly the
rows whose id is outside the fetched existing-id set; if nothing is left
(in particular when every batch id is already in the fetched set) it returns
0 without touching the warehouse, and otherwise it appends only filtered
rows to the warehouse, returning the number of rows actually written (all of
them when the bulk write succeeds, the successful chunks otherwise). -/
theorem C6_load_with_dedup_filters (warehouse df : List Row)
    (fetch_ok bulk_ok : Bool) (chunk_ok : Nat → Bool)
    (hne : ¬ df.isEmpty) :
    ((∀ r ∈ df, r.1 ∈ get_existing_detection_ids warehouse fetch_ok) →
        load_with_deduplication warehouse df fetch_ok bulk_ok chunk_ok
          = (0, warehouse)) ∧
    (df.filter (fun r =>
          !decide (r.1 ∈ get_existing_detection_ids warehouse fetch_ok)) = []
        → load_with_deduplication warehouse df fetch_ok bulk_ok chunk_ok
            = (0, warehouse)) ∧
    (∀ _hne2 : df.filter (fun r =>
          !decide (r.1 ∈ get_existing_detection_ids warehouse fetch_ok)) ≠ [],
      ∃ w : List Row,
        w.Sublist (df.filter (fun r =>
          !decide (r.1 ∈ get_existing_detection_ids warehouse fetch_ok))) ∧
        load_with_deduplication warehouse df fetch_ok bulk_ok chunk_ok
          = (w.length, warehouse ++ w) ∧
        (bulk_ok = true → w = df.filter (fun r =>
          !decide (r.1 ∈ get_existing_detection_ids warehouse fetch_ok)))) := by
  refine ⟨?_, ?_, ?_⟩
  · intro hall
    have hfil : df.filter (fun r =>
        !decide (r.1 ∈ get_existing_detection_ids warehouse fetch_ok)) = [] := by
      rw [List.filter_eq_nil_iff]
      intro r hr
      simp [hall r hr]
    simp [load_with_deduplication, hne, hfil]
  · intro hfil
    simp [load_with_deduplication, hne, hfil]
  · intro hne2
    obtain ⟨w, hsub, heq, hbulk⟩ := load_batch_spec warehouse
      (df.filter (fun r =>
        !decide (r.1 ∈ get_existing_detection_ids warehouse fetch_ok)))
      bulk_ok chunk_ok
    refine ⟨w, hsub, ?_, hbulk⟩
    have hfne : ¬ (df.filter (fun r =>
        !decide (r.1 ∈ get_existing_detection_ids warehouse fetch_ok))).isEmpty := by
      simpa [List.isEmpty_iff] using hne2
    simp only [load_with_deduplication, hne, Bool.false_eq_true, if_false,
      hfne]
    exact heq

theorem C6_load_with_dedup_filters_witness :
    load_with_deduplication [(("a" : String), 0)] [("a", 1), ("b", 2)] true
        true (fun _ => true) = (1, [("a", 0), ("b", 2)]) := by
  obtain ⟨w, hsub, heq, hbulk⟩ :=
    (C6_load_with_dedup_filters [("a", 0)] [("a", 1), ("b", 2)] true true
      (fun _ => true) (by decide)).2.2 (by decide)
  rw [heq, hbulk rfl]
  decide

theorem data_mk (l : List Char) : (String.mk l).data = l := rfl

theorem repFile_injective : Function.Injective repFile := by
  intro i j h
  have := congrArg (fun s => s.data.length) h
  simpa [repFile, data_mk] using this

theorem probeFiles_nodup : probeFiles.Nodup :=
  (List.nodup_range 10001).map repFile_injective

theorem mark_files_processed_list_mono (filenames : List String) :
    ∀ (processed : List String) (f : String), f ∈ processed →
      f ∈ mark_files_processed_list filenames processed := by
  induction filenames with
  | nil => intro processed f hf; exact hf
  | cons x xs ih =>
      intro processed f hf
      simp only [mark_files_processed_list, List.foldl_cons]
      by_cases hx : x ∈ processed
      · simp only [if_pos hx]
        exact ih processed f hf
      · simp only [if_neg hx]
        exact ih _ f (List.mem_append_left _ hf)

theorem mark_files_processed_list_fresh (filenames : List String) :
    ∀ processed : List String, filenames.Nodup →
      (∀ f ∈ filenames, f ∉ processed) →
      mark_files_processed_list filenames processed
        = processed ++ filenames := by
  induction filenames with
  | nil => intro processed _ _; simp [mark_files_processed_list]
  | cons x xs ih =>
      intro processed hnd hfresh
      have hx : x ∉ processed := hfresh x (by simp)
      simp only [mark_files_processed_list, List.foldl_cons, if_neg hx]
      have hrec := ih (processed ++ [x]) hnd.of_cons ?_
      · calc (xs.foldl (fun acc filename =>
            if filename ∈ acc then acc else acc ++ [filename])
              (processed ++ [x]))
            = (processed ++ [x]) ++ xs := hrec
          _ = processed ++ (x :: xs) := by simp
      · intro g hg
        simp only [List.mem_append, List.mem_singleton]
        push_neg
        refine ⟨hfresh g (by simp [hg]), ?_⟩
        intro hgx
        rw [hgx] at hg
        exact (List.nodup_cons.mp hnd).1 hg

theorem applyOps_nil (st : EtlState) : applyOps [] st = st := rfl

theorem applyOps_cons (op : BatchOp) (ops : List BatchOp) (st : EtlState) :
    applyOps (op :: ops) st = applyOps ops (applyOp op st) := rfl

theorem applyOp_mark_processed (fns : List String) (st : EtlState) :
    (applyOp (.mark_files_processed fns) st).processed_files
      = mark_files_processed_list fns st.processed_files := rfl

theorem applyOp_cleanup_processed (st : EtlState)
    (h : st.processed_files.length > cleanup_max_files) :
    (applyOp .cleanup_old_state st).processed_files
      = st.processed_files.drop
          (st.processed_files.length - cleanup_max_files) := by
  simp only [applyOp, if_pos h]

/-- C7 counterexample: after `mark_files_processed` has recorded 10001
distinct file names, `cleanup_old_state` (which is not `reset_state`) keeps
only the newest 10000 (`batch_manager.py` lines 242-248), removing the
oldest name from `processed_files`. -/
theorem C7_counterexample :
    repFile 0 ∈ (applyOps [.mark_files_processed probeFiles]
        initState).processed_files ∧
      repFile 0 ∉ (applyOps [.mark_files_processed probeFiles,
        .cleanup_old_state] initState).processed_files := by
  have hfresh : ∀ f ∈ probeFiles, f ∉ ([] : List String) := by
    intro f _ hf
    exact absurd hf (List.not_mem_nil f)
  have hst1 : (applyOp (.mark_files_processed probeFiles)
      initState).processed_files = probeFiles := by
    rw [applyOp_mark_processed, show initState.processed_files = [] from rfl,
      mark_files_processed_list_fresh probeFiles [] probeFiles_nodup hfresh]
    exact List.nil_append probeFiles
  have hlen : probeFiles.length = 10001 := by
    simp [probeFiles]
  have hdecomp : probeFiles
      = repFile 0 :: (List.range 10000).map
          (fun k => repFile (Nat.succ k)) := by
    rw [probeFiles, List.range_succ_eq_map, List.map_cons, List.map_map]
    rfl
  constructor
  · rw [applyOps_cons, applyOps_nil, hst1]
    exact List.mem_map.mpr ⟨0, List.mem_range.mpr (by omega), rfl⟩
  · rw [applyOps_cons, applyOps_cons, applyOps_nil]
    have hcond : (applyOp (.mark_files_processed probeFiles)
        initState).processed_files.length > cleanup_max_files := by
      rw [hst1, hlen]
      decide
    rw [applyOp_cleanup_processed _ hcond, hst1, hlen,
      show (10001 : Nat) - cleanup_max_files = 1 from by decide, hdecomp]
    simp only [List.drop_succ_cons, List.drop_zero]
    intro hmem
    obtain ⟨k, -, hk⟩ := List.mem_map.mp hmem
    have := repFile_injective hk
    omega

/-- C7 (amended): under every sequence of `BatchManager` operations other
than `reset_state` and `cleanup_old_state`, `processed_files` grows
monotonically - once a file name has been added, no such operation removes
it.  (`cleanup_old_state` is a second removing operation besides the
explicit reset: it truncates `processed_files` to its newest 10000 entries -
see the counterexample.) -/
theorem C7_processed_files_monotone (ops : List BatchOp)
    (h : ∀ op ∈ ops, op ≠ BatchOp.reset_state ∧
      op ≠ BatchOp.cleanup_old_state)
    (st : EtlState) (f : String) (hf : f ∈ st.processed_files) :
    f ∈ (applyOps ops st).processed_files := by
  induction ops generalizing st with
  | nil => exact hf
  | cons op ops ih =>
      have hop := h op (by simp)
      have htail : ∀ o ∈ ops, o ≠ BatchOp.reset_state ∧
          o ≠ BatchOp.cleanup_old_state := fun o ho => h o (by simp [ho])
      have hstep : f ∈ (applyOp op st).processed_files := by
        cases op with
        | mark_files_processed filenames =>
            simpa [applyOp] using
              mark_files_processed_list_mono filenames st.processed_files f hf
        | update_video_batch_time now => simpa [applyOp] using hf
        | update_image_batch_processed count => simpa [applyOp] using hf
        | update_statistics n now => simpa [applyOp] using hf
        | cleanup_old_state => exact absurd rfl hop.2
        | reset_state => exact absurd rfl hop.1
      simpa [applyOps, List.foldl_cons] using
        ih htail (applyOp op st) hstep

theorem C7_processed_files_monotone_witness :
    "video_a.csv" ∈ (applyOps
      [.update_video_batch_time 0, .update_statistics 5 0, .mark_files_processed ["video_b.csv"]]
      { initState with processed_files := ["video_a.csv"] }).processed_files :=
  C7_processed_files_monotone _ (by decide) _ _ (by decide)

theorem run_etl_pipeline_error_state (t : SourceType) (env : List StagedFile)
    (st : EtlState) (transform : List Row → Except String (List Row))
    (load_with_dedup : List Row → Except String Nat) (now : Int) :
    (run_etl_pipeline t env st transform load_with_dedup now).error.isSome →
      (run_etl_pipeline t env st transform load_with_dedup now).state
        = st := by
  simp only [run_etl_pipeline]
  split
  · intro _; rfl
  · split
    · intro _; rfl
    · split
      · intro _; rfl
      · split
        · intro _; rfl
        · intro h
          simp at h

theorem run_etl_pipeline_char (t : SourceType) (env : List StagedFile)
    (st : EtlState) (transform : List Row → Except String (List Row))
    (load_with_dedup : List Row → Except String Nat) (now : Int) :
    (run_etl_pipeline t env st transform load_with_dedup now).state = st ∨
    ((run_etl_pipeline t env st transform load_with_dedup now).error
        = none ∧
      (∃ n, PipeAction.loaded n ∈
        (run_etl_pipeline t env st transform load_with_dedup now).trace) ∧
      ((run_etl_pipeline t env st transform
            load_with_dedup now).state.pending_images
          = st.pending_images ∨
        (run_etl_pipeline t env st transform
            load_with_dedup now).state.pending_images = [])) := by
  simp only [run_etl_pipeline]
  split
  · left; rfl
  · split
    · left; rfl
    · split
      · left; rfl
      · split
        · left; rfl
        · right
          refine ⟨rfl, ?_, ?_⟩
          · simp
          · cases t
            · left; rfl
            · right; rfl

/-- C3: if an exception escapes Extract, Transform or Load, the pipeline
state (processed_files, last_video_batch, pending_images, last_run and all
statistics counters) is exactly as before the invocation, so the same files
remain pending; conversely, the state changes only on invocations whose load
returned successfully. -/
theorem C3_no_mutation_on_error (t : SourceType) (env : List StagedFile)
    (st : EtlState) (transform : List Row → Except String (List Row))
    (load_with_dedup : List Row → Except String Nat) (now : Int) :
    ((run_etl_pipeline t env st transform load_with_dedup now).error.isSome →
      (run_etl_pipeline t env st transform load_with_dedup now).state
        = st) ∧
    ((run_etl_pipeline t env st transform load_with_dedup now).state ≠ st →
      (run_etl_pipeline t env st transform load_with_dedup now).error
          = none ∧
        ∃ n, PipeAction.loaded n ∈
          (run_etl_pipeline t env st transform load_with_dedup now).trace) := by
  constructor
  · exact run_etl_pipeline_error_state t env st transform load_with_dedup now
  · intro hne
    rcases run_etl_pipeline_char t env st transform load_with_dedup now with
      h | ⟨herr, hloaded, -⟩
    · exact absurd h hne
    · exact ⟨herr, hloaded⟩

theorem C3_no_mutation_on_error_witness :
    (run_etl_pipeline .image
      [{ name := "image_x.csv", rows := some [(("d" : String), 0)] }]
      initState (fun rows => Except.ok rows)
      (fun _ => Except.error "connection refused") 0).state = initState :=
  (C3_no_mutation_on_error .image
    [{ name := "image_x.csv", rows := some [(("d" : String), 0)] }]
    initState (fun rows => Except.ok rows)
    (fun _ => Except.error "connection refused") 0).1 (by decide)

theorem scheduler_image_check_not_triggered (env : List StagedFile)
    (st : EtlState) (inv : List (SourceType × List PipeAction))
    (transform : List Row → Except String (List Row))
    (load_with_dedup : List Row → Except String Nat) (now : Int)
    (image_batch_size : Int)
    (h : should_process_image_batch (st.pending_images.length : Int)
      image_batch_size = false) :
    scheduler_image_check env st inv transform load_with_dedup now
      image_batch_size = { state := st, invoked := inv } := by
  simp only [scheduler_image_check, h, Bool.false_eq_true, if_false]

theorem scheduler_image_check_no_video (env : List StagedFile)
    (st : EtlState) (inv : List (SourceType × List PipeAction))
    (transform : List Row → Except String (List Row))
    (load_with_dedup : List Row → Except String Nat) (now : Int)
    (image_batch_size : Int) (tr : List PipeAction)
    (hinv : (SourceType.video, tr) ∉ inv) :
    (SourceType.video, tr) ∉ (scheduler_image_check env st inv transform
      load_with_dedup now image_batch_size).invoked := by
  simp only [scheduler_image_check]
  split
  · intro hmem
    rcases List.mem_append.mp hmem with h1 | h1
    · exact hinv h1
    · simp at h1
  · exact hinv

/-- C2 counterexample: in one-shot mode (`run_etl.py` lines 286-294) the
pipeline for a source type runs without any trigger evaluation.  With one
staged image file of 60 rows, `image_batch_size = 100` and fresh state, the
image trigger is false (by staged row count, 60 < 100, and by the pending
counter, 0 < 100), yet the one-shot image invocation extracts, loads 60 rows
and marks the file processed instead of stopping. -/
theorem C2_counterexample :
    should_process_image_batch 60 100 = false ∧
    should_process_image_batch (initState.pending_images.length : Int) 100
      = false ∧
    PipeAction.loaded 60 ∈ (main_one_shot .image
      [{ name := "image_b_20240101_100000.csv",
         rows := some ((List.range 60).map (fun i => ("d", i))) }]
      initState (fun rows => Except.ok rows)
      (fun rows => Except.ok rows.length) 0).trace ∧
    (main_one_shot .image
      [{ name := "image_b_20240101_100000.csv",
         rows := some ((List.range 60).map (fun i => ("d", i))) }]
      initState (fun rows => Except.ok rows)
      (fun rows => Except.ok rows.length) 0).state.processed_files
      = ["image_b_20240101_100000.csv"] := by
  refine ⟨by decide, by decide, by decide, by decide⟩

/-- C2 (amended): only continuous mode gates on the batch trigger: a poll
iteration that finds a trigger unsatisfied does not invoke the corresponding
pipeline (and if both triggers are unsatisfied it leaves the state untouched
and invokes nothing); one-shot mode runs the pipeline unconditionally,
without evaluating any trigger (see the counterexample). -/
theorem C2_continuous_trigger_gate (env : List StagedFile) (st : EtlState)
    (transform : List Row → Except String (List Row))
    (load_with_dedup : List Row → Except String Nat) (now : Int)
    (video_time_window image_batch_size : Int) :
    ((should_process_video_batch st.last_video_batch now video_time_window
        = false) →
      (should_process_image_batch (st.pending_images.length : Int)
        image_batch_size = false) →
      scheduler_iteration env st transform load_with_dedup now
        video_time_window image_batch_size
        = { state := st, invoked := [] }) ∧
    ((should_process_video_batch st.last_video_batch now video_time_window
        = false) →
      ∀ tr, (SourceType.video, tr) ∉ (scheduler_iteration env st transform
        load_with_dedup now video_time_window image_batch_size).invoked) ∧
    (∀ (st1 : EtlState) (inv : List (SourceType × List PipeAction)),
      should_process_image_batch (st1.pending_images.length : Int)
          image_batch_size = false →
      scheduler_image_check env st1 inv transform load_with_dedup now
        image_batch_size = { state := st1, invoked := inv }) := by
  refine ⟨?_, ?_, ?_⟩
  · intro hv hi
    simp only [scheduler_iteration, hv, Bool.false_eq_true, if_false]
    exact scheduler_image_check_not_triggered env st [] transform
      load_with_dedup now image_batch_size hi
  · intro hv tr
    simp only [scheduler_iteration, hv, Bool.false_eq_true, if_false]
    exact scheduler_image_check_no_video env st [] transform load_with_dedup
      now image_batch_size tr (by simp)
  · intro st1 inv hi
    exact scheduler_image_check_not_triggered env st1 inv transform
      load_with_dedup now image_batch_size hi

theorem C2_continuous_trigger_gate_witness :
    scheduler_iteration [] { initState with last_video_batch := some 0 }
      (fun rows => Except.ok rows) (fun rows => Except.ok rows.length) 0
      300 100
      = { state := { initState with last_video_batch := some 0 },
          invoked := [] } :=
  (C2_continuous_trigger_gate [] { initState with last_video_batch := some 0 }
    (fun rows => Except.ok rows) (fun rows => Except.ok rows.length) 0
    300 100).1 (by decide) (by decide)

theorem applyOp_pending (op : BatchOp) (st : EtlState) :
    (applyOp op st).pending_images = st.pending_images ∨
      (applyOp op st).pending_images = [] := by
  cases op with
  | mark_files_processed filenames => left; rfl
  | update_video_batch_time now => left; rfl
  | update_image_batch_processed count => right; rfl
  | update_statistics n now => left; rfl
  | cleanup_old_state =>
      simp only [applyOp]
      split
      · left; rfl
      · left; rfl
  | reset_state => right; rfl

theorem applyOps_pending_empty (ops : List BatchOp) :
    ∀ st : EtlState, st.pending_images = [] →
      (applyOps ops st).pending_images = [] := by
  induction ops with
  | nil => intro st h; exact h
  | cons op ops ih =>
      intro st h
      rw [applyOps_cons]
      apply ih
      rcases applyOp_pending op st with h1 | h1
      · rw [h1, h]
      · exact h1

theorem run_etl_pipeline_pending_empty (t : SourceType)
    (env : List StagedFile) (st : EtlState)
    (transform : List Row → Except String (List Row))
    (load_with_dedup : List Row → Except String Nat) (now : Int)
    (h : st.pending_images = []) :
    (run_etl_pipeline t env st transform
      load_with_dedup now).state.pending_images = [] := by
  rcases run_etl_pipeline_char t env st transform load_with_dedup now with
    h1 | ⟨-, -, h1 | h1⟩
  · rw [h1, h]
  · rw [h1, h]
  · exact h1

theorem should_process_image_batch_empty (st : EtlState) (N : Int)
    (hp : st.pending_images = []) (hN : 1 ≤ N) :
    should_process_image_batch (st.pending_images.length : Int) N
      = false := by
  rw [hp]
  simp only [List.length_nil, Nat.cast_zero, should_process_image_batch,
    decide_eq_false_iff_not]
  omega

/-- C10: starting from the synthesized default state, no `BatchManager`
operation ever adds to `pending_images` (`update_image_batch_processed` only
resets it to the empty list), so it stays empty across every operation
sequence and across every pipeline invocation; consequently a continuous-mode
poll iteration always evaluates `should_process_image_batch` on a pending
count of 0, which is false for any `image_batch_size >= 1`, and the image
pipeline callback is never invoked from the poll loop. -/
theorem C10_pending_images_empty :
    (∀ (ops : List BatchOp) (st : EtlState), st.pending_images = [] →
        (applyOps ops st).pending_images = []) ∧
    (∀ ops : List BatchOp, (applyOps ops initState).pending_images = []) ∧
    (∀ (env : List StagedFile) (st : EtlState)
        (transform : List Row → Except String (List Row))
        (load_with_dedup : List Row → Except String Nat)
        (now video_time_window image_batch_size : Int),
      st.pending_images = [] → 1 ≤ image_batch_size →
      ∀ tr : List PipeAction,
        (SourceType.image, tr) ∉ (scheduler_iteration env st transform
          load_with_dedup now video_time_window image_batch_size).invoked) := by
  refine ⟨fun ops st h => applyOps_pending_empty ops st h,
    fun ops => applyOps_pending_empty ops initState rfl, ?_⟩
  intro env st transform load_with_dedup now W N hp hN tr
  simp only [scheduler_iteration]
  split
  · split
    · simp
    · rw [scheduler_image_check_not_triggered _ _ _ _ _ _ _
        (should_process_image_batch_empty _ N
          (run_etl_pipeline_pending_empty .video env st transform
            load_with_dedup now hp) hN)]
      simp
  · rw [scheduler_image_check_not_triggered _ _ _ _ _ _ _
      (should_process_image_batch_empty _ N hp hN)]
    simp

theorem C10_pending_images_empty_witness :
    (applyOps [.mark_files_processed ["video_a.csv"],
      .update_video_batch_time 0, .update_image_batch_processed 3]
      initState).pending_images = [] :=
  C10_pending_images_empty.1
    [.mark_files_processed ["video_a.csv"], .update_video_batch_time 0,
      .update_image_batch_processed 3] initState rfl

theorem getCol_absent (cs : List (String × List Cell)) (c : String) (n : Nat)
    (h : c ∉ cs.map Prod.fst) : getCol cs c n = List.replicate n none := by
  unfold getCol
  have hnone : cs.find? (fun x => x.1 == c) = none := by
    rw [List.find?_eq_none]
    intro x hx
    simp only [beq_iff_eq]
    intro hxc
    exact h (List.mem_map.mpr ⟨x, hx, hxc⟩)
  rw [hnone]

theorem getCol_append_left (cs l : List (String × List Cell)) (c : String)
    (n : Nat) (h : c ∈ cs.map Prod.fst) :
    getCol (cs ++ l) c n = getCol cs c n := by
  unfold getCol
  rw [List.find?_append]
  obtain ⟨x, hx, hxc⟩ := List.mem_map.mp h
  have hsome : (cs.find? (fun x => x.1 == c)).isSome :=
    List.find?_isSome.mpr ⟨x, hx, by simp [hxc]⟩
  rw [Option.or_of_isSome hsome]

theorem getCol_append_absent (cs : List (String × List Cell)) (c : String)
    (v : List Cell) (n : Nat) (h : c ∉ cs.map Prod.fst) :
    getCol (cs ++ [(c, v)]) c n = v := by
  unfold getCol
  rw [List.find?_append]
  have hnone : cs.find? (fun x => x.1 == c) = none := by
    rw [List.find?_eq_none]
    intro x hx
    simp only [beq_iff_eq]
    intro hxc
    exact h (List.mem_map.mpr ⟨x, hx, hxc⟩)
  rw [hnone, Option.none_or]
  simp

theorem getCol_map_self (g : String → List Cell) (n : Nat) :
    ∀ (l : List String) (c : String), c ∈ l →
      getCol (l.map (fun x => (x, g x))) c n = g c := by
  intro l
  induction l with
  | nil => intro c hc; exact absurd hc (List.not_mem_nil c)
  | cons d l ih =>
      intro c hc
      by_cases hdc : d = c
      · subst hdc
        unfold getCol
        rw [List.map_cons, List.find?_cons_of_pos _ (by simp)]
      · have hcl : c ∈ l := by
          rcases List.mem_cons.mp hc with h | h
          · exact absurd h.symm hdc
          · exact h
        unfold getCol
        rw [List.map_cons, List.find?_cons_of_neg _ (by simp [hdc])]
        exact ih c hcl

theorem fill_fold_preserve (n0 : Nat) :
    ∀ (todo : List String) (cs : List (String × List Cell)) (c : String)
      (n : Nat), c ∈ cs.map Prod.fst →
      getCol (todo.foldl (fun cs col =>
          if (cs.map Prod.fst).contains col then cs
          else cs ++ [(col, List.replicate n0 none)]) cs) c n
        = getCol cs c n := by
  intro todo
  induction todo with
  | nil => intro cs c n _; rfl
  | cons d todo ih =>
      intro cs c n hc
      simp only [List.foldl_cons]
      by_cases hd : (cs.map Prod.fst).contains d
      · rw [if_pos hd]
        exact ih cs c n hc
      · rw [if_neg hd]
        have hc2 : c ∈ (cs ++ [(d, List.replicate n0 none)]).map Prod.fst := by
          rw [List.map_append]
          exact List.mem_append_left _ hc
        rw [ih _ c n hc2, getCol_append_left cs _ c n hc]

theorem fill_fold_pending (n0 : Nat) :
    ∀ (todo : List String) (cs : List (String × List Cell)) (c : String)
      (n : Nat), todo.Nodup → c ∈ todo → c ∉ cs.map Prod.fst →
      getCol (todo.foldl (fun cs col =>
          if (cs.map Prod.fst).contains col then cs
          else cs ++ [(col, List.replicate n0 none)]) cs) c n
        = List.replicate n0 none := by
  intro todo
  induction todo with
  | nil => intro cs c n _ hc _; exact absurd hc (List.not_mem_nil c)
  | cons d todo ih =>
      intro cs c n hnd hc habs
      simp only [List.foldl_cons]
      by_cases hdc : d = c
      · subst hdc
        have hcont : (cs.map Prod.fst).contains d = false := by
          simpa using habs
        simp only [hcont, Bool.false_eq_true, if_false]
        have hmemc : d ∈ (cs ++ [(d, List.replicate n0 none)]).map
            Prod.fst := by
          rw [List.map_append]
          exact List.mem_append_right _ (by simp)
        rw [fill_fold_preserve n0 todo _ d n hmemc,
          getCol_append_absent cs d _ n habs]
      · have hcl : c ∈ todo := by
          rcases List.mem_cons.mp hc with h | h
          · exact absurd h.symm hdc
          · exact h
        by_cases hd : (cs.map Prod.fst).contains d
        · rw [if_pos hd]
          exact ih cs c n (List.nodup_cons.mp hnd).2 hcl habs
        · rw [if_neg hd]
          apply ih _ c n (List.nodup_cons.mp hnd).2 hcl
          rw [List.map_append]
          intro hmem
          rcases List.mem_append.mp hmem with h | h
          · exact habs h
          · simp at h
            exact hdc h.symm

theorem addProcessingDate_nrows (df : Frame) (dateOf : Cell → Cell)
    (today : String) : (addProcessingDate df dateOf today).nrows
      = df.nrows := by
  simp only [addProcessingDate]
  split
  · rfl
  · split
    · rfl
    · rfl

theorem stage3_nrows (df : Frame) (dateOf : Cell → Cell)
    (now_iso today : String) :
    (addProcessingDate (applyRenames (stampLoadedAt df now_iso)) dateOf
      today).nrows = df.nrows := by
  rw [addProcessingDate_nrows]
  rfl

theorem expected_columns_nodup : expected_columns.Nodup := by decide

theorem filter_label_unique (c : String) (v : List Cell) :
    ∀ cs : List (String × List Cell), (cs.map Prod.fst).Nodup →
      (c, v) ∈ cs → cs.filter (fun x => x.1 == c) = [(c, v)] := by
  intro cs
  induction cs with
  | nil => intro _ h; exact absurd h (List.not_mem_nil _)
  | cons d cs ih =>
      intro hnd hmem
      rw [List.map_cons, List.nodup_cons] at hnd
      rcases List.mem_cons.mp hmem with heq | hmem2
      · rw [← heq] at hnd ⊢
        rw [List.filter_cons, if_pos (by simp)]
        have hrest : cs.filter (fun x => x.1 == c) = [] := by
          rw [List.filter_eq_nil_iff]
          intro x hx
          simp only [beq_iff_eq]
          intro hxc
          exact hnd.1 (hxc ▸ List.mem_map.mpr ⟨x, hx, rfl⟩)
        rw [hrest]
      · have hc_mem : c ∈ cs.map Prod.fst :=
          List.mem_map.mpr ⟨(c, v), hmem2, rfl⟩
        have hd_ne : d.1 ≠ c := fun h => hnd.1 (h ▸ hc_mem)
        rw [List.filter_cons, if_neg (by simp [hd_ne])]
        exact ih hnd.2 hmem2

theorem getCol_unique (c : String) (v : List Cell) (n : Nat) :
    ∀ cs : List (String × List Cell), (cs.map Prod.fst).Nodup →
      (c, v) ∈ cs → getCol cs c n = v := by
  intro cs
  induction cs with
  | nil => intro _ h; exact absurd h (List.not_mem_nil _)
  | cons d cs ih =>
      intro hnd hmem
      rw [List.map_cons, List.nodup_cons] at hnd
      rcases List.mem_cons.mp hmem with heq | hmem2
      · rw [← heq]
        unfold getCol
        rw [List.find?_cons_of_pos _ (by simp)]
      · have hc_mem : c ∈ cs.map Prod.fst :=
          List.mem_map.mpr ⟨(c, v), hmem2, rfl⟩
        have hd_ne : d.1 ≠ c := fun h => hnd.1 (h ▸ hc_mem)
        unfold getCol
        rw [List.find?_cons_of_neg _ (by simp [hd_ne])]
        exact ih hnd.2 hmem2

theorem fill_fold_labels_nodup (n0 : Nat) :
    ∀ (todo : List String) (cs : List (String × List Cell)),
      (cs.map Prod.fst).Nodup →
      ((todo.foldl (fun cs col =>
          if (cs.map Prod.fst).contains col then cs
          else cs ++ [(col, List.replicate n0 none)]) cs).map
        Prod.fst).Nodup := by
  intro todo
  induction todo with
  | nil => intro cs h; exact h
  | cons d todo ih =>
      intro cs h
      simp only [List.foldl_cons]
      by_cases hd : (cs.map Prod.fst).contains d
      · rw [if_pos hd]
        exact ih cs h
      · rw [if_neg hd]
        apply ih
        rw [List.map_append]
        apply List.Nodup.append h (by simp)
        intro a ha hmem
        simp at hmem
        rw [hmem] at ha
        exact (by simpa using hd : d ∉ cs.map Prod.fst) ha

theorem fill_fold_mem_mono (n0 : Nat) :
    ∀ (todo : List String) (cs : List (String × List Cell)) (c : String),
      c ∈ cs.map Prod.fst →
      c ∈ (todo.foldl (fun cs col =>
          if (cs.map Prod.fst).contains col then cs
          else cs ++ [(col, List.replicate n0 none)]) cs).map Prod.fst := by
  intro todo
  induction todo with
  | nil => intro cs c h; exact h
  | cons d todo ih =>
      intro cs c h
      simp only [List.foldl_cons]
      by_cases hd : (cs.map Prod.fst).contains d
      · rw [if_pos hd]
        exact ih cs c h
      · rw [if_neg hd]
        apply ih
        rw [List.map_append]
        exact List.mem_append_left _ h

theorem fill_fold_mem (n0 : Nat) :
    ∀ (todo : List String) (cs : List (String × List Cell)) (c : String),
      c ∈ todo →
      c ∈ (todo.foldl (fun cs col =>
          if (cs.map Prod.fst).contains col then cs
          else cs ++ [(col, List.replicate n0 none)]) cs).map Prod.fst := by
  intro todo
  induction todo with
  | nil => intro cs c h; exact absurd h (List.not_mem_nil c)
  | cons d todo ih =>
      intro cs c hc
      simp only [List.foldl_cons]
      by_cases hdc : d = c
      · subst hdc
        by_cases hd : (cs.map Prod.fst).contains d
        · rw [if_pos hd]
          exact fill_fold_mem_mono n0 todo cs d (by simpa using hd)
        · rw [if_neg hd]
          apply fill_fold_mem_mono n0 todo _ d
          rw [List.map_append]
          exact List.mem_append_right _ (by simp)
      · have hcl : c ∈ todo := by
          rcases List.mem_cons.mp hc with h | h
          · exact absurd h.symm hdc
          · exact h
        by_cases hd : (cs.map Prod.fst).contains d
        · rw [if_pos hd]
          exact ih cs c hcl
        · rw [if_neg hd]
          exact ih _ c hcl

theorem select_flatMap_eq (cs : List (String × List Cell)) (n : Nat)
    (hnd : (cs.map Prod.fst).Nodup) :
    ∀ l : List String, (∀ c ∈ l, c ∈ cs.map Prod.fst) →
      l.flatMap (fun c => cs.filter (fun x => x.1 == c))
        = l.map (fun c => (c, getCol cs c n)) := by
  intro l
  induction l with
  | nil => simp
  | cons c l ih =>
      intro hall
      obtain ⟨x, hmem, hfst⟩ := List.mem_map.mp (hall c (by simp))
      obtain ⟨c2, v⟩ := x
      dsimp at hfst
      subst hfst
      rw [List.flatMap_cons, List.map_cons,
        filter_label_unique c2 v cs hnd hmem,
        getCol_unique c2 v n cs hnd hmem,
        ih (fun x hx => hall x (by simp [hx])),
        List.singleton_append]

/-- C9 counterexample: a batch carrying both the alternate `filename` label
and its canonical target `source_filename` is renamed (lines 125-127) into
two `source_filename` columns without any raise, and `df[expected_columns]`
then selects every matching column, so the written row-set has 38 columns
with `source_filename` twice - not exactly the fixed expected-column
list. -/
theorem C9_counterexample :
    (prepare_for_load dupFrame (fun _ => some "2024-01-01") "LOADTIME"
        "TODAY").cols.map Prod.fst ≠ expected_columns ∧
    ((prepare_for_load dupFrame (fun _ => some "2024-01-01") "LOADTIME"
        "TODAY").cols.map Prod.fst).count "source_filename" = 2 ∧
    (prepare_for_load dupFrame (fun _ => some "2024-01-01") "LOADTIME"
        "TODAY").cols.length = 38 := by
  refine ⟨by decide, by decide, by decide⟩

/-- C9 (amended): for every batch whose column labels are still pairwise
distinct after the stamping, rename and date stages - in particular
whenever the batch does not carry both an alternate column name and its
canonical name - the row-set prepared by `load_batch` has exactly the
canonical `expected_columns` in order; every expected column absent after
those stages is present filled with nulls; and the known alternate names
are renamed to canonical ones (exhibited on a concrete frame carrying the
alternate `timestamp` column: its values move to `detection_timestamp`,
`processing_date` is derived from them, and the absent `class_name` is
null-filled).  A batch whose rename step produces a duplicated label gets
every matching column written instead - see the counterexample. -/
theorem C9_fixed_schema :
    (∀ (df : Frame) (dateOf : Cell → Cell) (now_iso today : String),
        ((addProcessingDate (applyRenames (stampLoadedAt df now_iso)) dateOf
            today).cols.map Prod.fst).Nodup →
        (prepare_for_load df dateOf now_iso today).cols.map Prod.fst
          = expected_columns) ∧
    (∀ (df : Frame) (dateOf : Cell → Cell) (now_iso today : String)
        (c : String),
        ((addProcessingDate (applyRenames (stampLoadedAt df now_iso)) dateOf
            today).cols.map Prod.fst).Nodup →
        c ∈ expected_columns →
        c ∉ (addProcessingDate (applyRenames (stampLoadedAt df now_iso))
              dateOf today).cols.map Prod.fst →
        getCol (prepare_for_load df dateOf now_iso today).cols c df.nrows
          = List.replicate df.nrows none) ∧
    (getCol (prepare_for_load sampleFrame
        (fun _ => some "2024-01-01") "LOADTIME" "TODAY").cols
        "detection_timestamp" 1 = [some "2024-01-01T00:00:00"] ∧
      getCol (prepare_for_load sampleFrame
        (fun _ => some "2024-01-01") "LOADTIME" "TODAY").cols
        "processing_date" 1 = [some "2024-01-01"] ∧
      getCol (prepare_for_load sampleFrame
        (fun _ => some "2024-01-01") "LOADTIME" "TODAY").cols
        "class_name" 1 = [none]) := by
  refine ⟨?_, ?_, by decide, by decide, by decide⟩
  · intro df dateOf now_iso today hnd
    show (selectExpected (fillMissing (addProcessingDate
      (applyRenames (stampLoadedAt df now_iso)) dateOf today))).cols.map
        Prod.fst = _
    set g3 := addProcessingDate (applyRenames (stampLoadedAt df now_iso))
      dateOf today with hg3
    have hnd4 : ((fillMissing g3).cols.map Prod.fst).Nodup := by
      simp only [fillMissing]
      exact fill_fold_labels_nodup g3.nrows expected_columns g3.cols hnd
    have hall : ∀ c ∈ expected_columns,
        c ∈ (fillMissing g3).cols.map Prod.fst := by
      intro c hc
      simp only [fillMissing]
      exact fill_fold_mem g3.nrows expected_columns g3.cols c hc
    show (expected_columns.flatMap
      (fun c => (fillMissing g3).cols.filter (fun x => x.1 == c))).map
        Prod.fst = _
    rw [select_flatMap_eq (fillMissing g3).cols (fillMissing g3).nrows hnd4
      expected_columns hall]
    simp only [List.map_map]
    have h : (Prod.fst ∘ fun c =>
        (c, getCol (fillMissing g3).cols c (fillMissing g3).nrows))
        = fun c : String => c := rfl
    rw [h, List.map_id']
  · intro df dateOf now_iso today c hnd hc habs
    show getCol (selectExpected (fillMissing (addProcessingDate
      (applyRenames (stampLoadedAt df now_iso)) dateOf today))).cols c
        df.nrows = _
    set g3 := addProcessingDate (applyRenames (stampLoadedAt df now_iso))
      dateOf today with hg3
    have hnd4 : ((fillMissing g3).cols.map Prod.fst).Nodup := by
      simp only [fillMissing]
      exact fill_fold_labels_nodup g3.nrows expected_columns g3.cols hnd
    have hall : ∀ x ∈ expected_columns,
        x ∈ (fillMissing g3).cols.map Prod.fst := by
      intro x hx
      simp only [fillMissing]
      exact fill_fold_mem g3.nrows expected_columns g3.cols x hx
    have hsel : getCol (selectExpected (fillMissing g3)).cols c df.nrows
        = getCol (fillMissing g3).cols c (fillMissing g3).nrows := by
      show getCol (expected_columns.flatMap
        (fun x => (fillMissing g3).cols.filter (fun y => y.1 == x))) c
          df.nrows = _
      rw [select_flatMap_eq (fillMissing g3).cols (fillMissing g3).nrows
        hnd4 expected_columns hall]
      exact getCol_map_self _ df.nrows expected_columns c hc
    rw [hsel]
    have hfill : getCol (fillMissing g3).cols c (fillMissing g3).nrows
        = List.replicate g3.nrows none := by
      simp only [fillMissing]
      exact fill_fold_pending g3.nrows expected_columns g3.cols c _
        expected_columns_nodup hc habs
    rw [hfill, hg3, stage3_nrows]

theorem C9_fixed_schema_witness :
    getCol (prepare_for_load sampleFrame
      (fun _ => some "2024-01-01") "LOADTIME" "TODAY").cols "class_name"
      sampleFrame.nrows
      = List.replicate sampleFrame.nrows none :=
  C9_fixed_schema.2.1
    sampleFrame
    (fun _ => some "2024-01-01") "LOADTIME" "TODAY" "class_name"
    (by decide) (by decide) (by decide)
